import Mathlib

/-!
Shallow embedding of the multi-source real-estate scraper (`src/scraper/scraper.go`,
the multi-source revision whose line numbers the development below refers to).

Modelling conventions:
* Text is `List Char`.  Go's `strings.TrimSpace`, `strings.ReplaceAll(s, ",", "")`,
  `strings.HasPrefix` and `strings.Contains` are embedded as list functions.
* Character classes are decided through `Char.toNat` so that disjointness facts are
  plain arithmetic.  RE2's `\s` is `[\t\n\f\r ]` (`isPerlSpace`); `unicode.IsSpace`
  (used by `TrimSpace`) is modelled on the Latin-1 range (`isUniSpace`); inputs in
  the development are ASCII so nothing is lost.
* Each Go regular expression used by the scraper is embedded as an explicit
  leftmost-match scanner.  All the expressions involved consist of greedy runs over
  pairwise disjoint character classes followed by literals, so the backtracking
  search of the regexp engine is deterministic and equals the direct scanner; the
  one non-obvious case (an optional fractional part) is noted at its definition.
* `float64` values are modelled as exact rationals.  `strconv.ParseFloat` keeps its
  error behaviour: a syntactically bad token (no digit or more than one dot) or a
  value at or beyond the `float64` overflow threshold `2^1024 - 2^970` yields no
  value, matching Go's `ErrSyntax`/`ErrRange`; in-range values are kept exact where
  Go would round to the nearest double.  `strconv.Atoi` (64-bit platform) fails
  beyond `2^63 - 1`; the scraper only feeds it digit runs, so signs are omitted.
* `time.Now().UnixNano()` is an oracle: each scraped node records the clock value
  observed while it was processed (`obsTime`).
-/

set_option maxRecDepth 8000

attribute [local semireducible] Rat.add Rat.mul Rat.sub Rat.inv Rat.ofScientific

/-- ASCII digit `[0-9]`, by code point. -/
def isDigit (c : Char) : Bool := decide (48 ≤ c.toNat ∧ c.toNat ≤ 57)

/-- Uppercase ASCII letter `[A-Z]`. -/
def isUpper (c : Char) : Bool := decide (65 ≤ c.toNat ∧ c.toNat ≤ 90)

/-- The currency-token class `[A-Z$€£]` of `parsePrice` ($ = 36, € = 8364, £ = 163). -/
def isCurrencyCh (c : Char) : Bool :=
  isUpper c || decide (c.toNat = 36) || decide (c.toNat = 8364) || decide (c.toNat = 163)

/-- RE2's `\s`, i.e. `[\t\n\f\r ]`. -/
def isPerlSpace (c : Char) : Bool :=
  decide (c.toNat = 9 ∨ c.toNat = 10 ∨ c.toNat = 12 ∨ c.toNat = 13 ∨ c.toNat = 32)

/-- `unicode.IsSpace` restricted to Latin-1 (the range exercised here). -/
def isUniSpace (c : Char) : Bool :=
  decide (c.toNat = 9 ∨ c.toNat = 10 ∨ c.toNat = 11 ∨ c.toNat = 12 ∨ c.toNat = 13 ∨
    c.toNat = 32 ∨ c.toNat = 133 ∨ c.toNat = 160)

/-- The class `[\d.]` of the price regexps ('.' = 46). -/
def isNumCh (c : Char) : Bool := isDigit c || decide (c.toNat = 46)

/-- The class `[A-Za-z\s]` of the Dubai location regexp. -/
def isAlphaSpace (c : Char) : Bool :=
  isUpper c || decide (97 ≤ c.toNat ∧ c.toNat ≤ 122) || isPerlSpace c

/-- Decimal value of a digit run, as `strconv` reads it. -/
def natOf (s : List Char) : ℕ := s.foldl (fun a c => 10 * a + (c.toNat - 48)) 0

/-- `fmt.Sprintf("%d", n)` for a non-negative integer. -/
def natRepr (n : ℕ) : List Char := (Nat.repr n).toList

/-- `strings.TrimSpace`. -/
def trimGo (s : List Char) : List Char :=
  ((s.dropWhile isUniSpace).reverse.dropWhile isUniSpace).reverse

/-- `strings.ReplaceAll(s, ",", "")` (',' = 44). -/
def stripCommas (s : List Char) : List Char := s.filter (fun c => decide (¬ c.toNat = 44))

/-- `strings.HasPrefix`. -/
def listPrefix : List Char → List Char → Bool
  | [], _ => true
  | _ :: _, [] => false
  | a :: as, b :: bs => a == b && listPrefix as bs

/-- `strings.Contains` (needle occurs as a contiguous substring). -/
def containsSub (needle : List Char) : List Char → Bool
  | [] => listPrefix needle []
  | c :: t => listPrefix needle (c :: t) || containsSub needle t

/-- Leftmost-match driver: try the matcher at every start position, leftmost first,
exactly as the regexp engine enumerates candidate positions. -/
def scanPos {α : Type} (f : List Char → Option α) : List Char → Option α
  | [] => f []
  | c :: t =>
    match f (c :: t) with
    | some a => some a
    | none => scanPos f t

/-- `strconv.Atoi` on a digit run (64-bit `int`; out of range is an error). -/
def goAtoi (ds : List Char) : Option ℕ :=
  if ds = [] then none
  else if natOf ds ≤ 9223372036854775807 then some (natOf ds) else none

/-- Smallest rational that `strconv.ParseFloat` rejects as overflow to `+Inf`. -/
def floatMaxQ : ℚ := ((2 ^ 1024 - 2 ^ 970 : ℕ) : ℚ)

/-- Value of integer digits `ip` and fractional digits `fp`. -/
def decimalValue (ip fp : List Char) : ℚ := (natOf ip : ℚ) + (natOf fp : ℚ) / 10 ^ fp.length

/-- `strconv.ParseFloat` on a token drawn from `[\d.]+`: Go accepts it when it has at
least one digit and at most one dot and the value is below the overflow threshold. -/
def goParseFloat (tok : List Char) : Option ℚ :=
  if (tok.filter (fun c => decide (c.toNat = 46))).length ≤ 1 ∧ tok.any isDigit then
    if floatMaxQ ≤ decimalValue (tok.takeWhile (fun c => decide (¬ c.toNat = 46)))
        ((tok.dropWhile (fun c => decide (¬ c.toNat = 46))).drop 1) then none
    else some (decimalValue (tok.takeWhile (fun c => decide (¬ c.toNat = 46)))
        ((tok.dropWhile (fun c => decide (¬ c.toNat = 46))).drop 1))
  else none

/-- `strconv.ParseFloat` on a token already split as `\d+(\.\d+)?`: the syntax is
always valid, only overflow can fail. -/
def goParseFloatNum (ip fp : List Char) : Option ℚ :=
  if floatMaxQ ≤ decimalValue ip fp then none else some (decimalValue ip fp)

/-- One candidate position of `([A-Z$€£]+)?\s*([\d.]+)` (the `parsePrice` regexp).
The three classes are pairwise disjoint, so the greedy run lengths are forced and a
position matches iff, after the maximal currency run and the maximal space run, at
least one `[\d.]` character follows. -/
def priceTry (s : List Char) : Option (List Char × List Char) :=
  if ((s.dropWhile isCurrencyCh).dropWhile isPerlSpace).takeWhile isNumCh = [] then none
  else some (s.takeWhile isCurrencyCh,
    ((s.dropWhile isCurrencyCh).dropWhile isPerlSpace).takeWhile isNumCh)

/-- Leftmost match of the `parsePrice` regexp: currency group and numeric token. -/
def priceFind : List Char → Option (List Char × List Char) := scanPos priceTry

/-- One candidate position of `([A-Z]{3})\s*\$?\s*([\d.]+)` (the `parseDubaiPrice`
regexp): exactly three capitals, optional spaces, an optional dollar sign, optional
spaces, then a nonempty `[\d.]` run. -/
def dubaiPriceTry (s : List Char) : Option (List Char × List Char) :=
  match s with
  | a :: b :: c :: r =>
    if isUpper a ∧ isUpper b ∧ isUpper c then
      match r.dropWhile isPerlSpace with
      | '$' :: r1 =>
        if (r1.dropWhile isPerlSpace).takeWhile isNumCh = [] then none
        else some ([a, b, c], (r1.dropWhile isPerlSpace).takeWhile isNumCh)
      | r1 =>
        if r1.takeWhile isNumCh = [] then none
        else some ([a, b, c], r1.takeWhile isNumCh)
    else none
  | _ => none

/-- Leftmost match of the `parseDubaiPrice` regexp. -/
def dubaiPriceFind : List Char → Option (List Char × List Char) := scanPos dubaiPriceTry

/-- One candidate position of `(\d+(?:\.\d+)?)\s*LIT` (the area regexps, with `LIT`
the unit literal).  The fractional group is taken greedily when a dot followed by a
digit is present; if the literal then fails, dropping the group cannot help, because
the character after the integer run would be the dot, which is neither space nor the
literal's first letter — so the direct test below equals the backtracking search. -/
def unitNumAfter (lit ds r : List Char) : Option (List Char × List Char) :=
  match r with
  | c :: t =>
    if c.toNat = 46 ∧ t.takeWhile isDigit ≠ [] then
      (if listPrefix lit ((t.dropWhile isDigit).dropWhile isPerlSpace) then
        some (ds, t.takeWhile isDigit) else none)
    else
      (if listPrefix lit ((c :: t).dropWhile isPerlSpace) then some (ds, []) else none)
  | [] => if listPrefix lit [] then some (ds, []) else none

def unitNumTry (lit : List Char) (s : List Char) : Option (List Char × List Char) :=
  if s.takeWhile isDigit = [] then none
  else unitNumAfter lit (s.takeWhile isDigit) (s.dropWhile isDigit)

/-- One candidate position of `(\d+)\s*LIT` (the bedroom/bathroom regexps). -/
def countTry (lit : List Char) (s : List Char) : Option (List Char) :=
  if s.takeWhile isDigit = [] then none
  else if listPrefix lit ((s.dropWhile isDigit).dropWhile isPerlSpace) then
    some (s.takeWhile isDigit)
  else none

/-- One candidate position of `([A-Za-z\s]+),\s*Dubai` (the Dubai location regexp). -/
def locTry (s : List Char) : Option (List Char) :=
  if s.takeWhile isAlphaSpace = [] then none
  else
    match s.dropWhile isAlphaSpace with
    | c :: t =>
      if c.toNat = 44 ∧ listPrefix "Dubai".toList (t.dropWhile isPerlSpace) then
        some (s.takeWhile isAlphaSpace)
      else none
    | [] => none

/-- `parsePrice` (scraper.go:534-547): strip commas, find the leftmost
`([A-Z$€£]+)?\s*([\d.]+)` match, parse the numeric token; on any failure the
unknown sentinel `(0, "")`. -/
def parsePrice (s : List Char) : ℚ × List Char :=
  match priceFind (stripCommas s) with
  | some (cur, tok) =>
    match goParseFloat tok with
    | some v => (v, trimGo cur)
    | none => (0, [])
  | none => (0, [])

/-- `parseDubaiPrice` (scraper.go:456-469). -/
def parseDubaiPrice (s : List Char) : ℚ × List Char :=
  match dubaiPriceFind (stripCommas s) with
  | some (cur, tok) =>
    match goParseFloat tok with
    | some v => (v, trimGo cur)
    | none => (0, [])
  | none => (0, [])

/-- `extractBedrooms` (scraper.go:501-510): leftmost `(\d+)\s*Bed`, `Atoi`, else 0. -/
def extractBedrooms (text : List Char) : ℕ :=
  match scanPos (countTry "Bed".toList) text with
  | some ds => (goAtoi ds).getD 0
  | none => 0

/-- `extractBathrooms` (scraper.go:512-521): leftmost `(\d+)\s*Bath`, `Atoi`, else 0. -/
def extractBathrooms (text : List Char) : ℕ :=
  match scanPos (countTry "Bath".toList) text with
  | some ds => (goAtoi ds).getD 0
  | none => 0

/-- Conversion factor used by `extractDubaiArea` (1 m2 = 10.764 sqft). -/
def sqftPerM2 : ℚ := 10764 / 1000

/-- `extractDubaiArea` (scraper.go:487-498): leftmost `(\d+(?:\.\d+)?)\s*m2`,
`ParseFloat`, times 10.764; 0 when absent or unparsable. -/
def extractDubaiArea (text : List Char) : ℚ :=
  match scanPos (unitNumTry "m2".toList) text with
  | some (ds, fs) =>
    match goParseFloatNum ds fs with
    | some v => v * sqftPerM2
    | none => 0
  | none => 0

/-- `extractArea` (scraper.go:523-532): leftmost `(\d+(?:\.\d+)?)\s*sqft`, the value
passes through unchanged; 0 when absent or unparsable. -/
def extractArea (text : List Char) : ℚ :=
  match scanPos (unitNumTry "sqft".toList) text with
  | some (ds, fs) =>
    match goParseFloatNum ds fs with
    | some v => v
    | none => 0
  | none => 0

/-- `extractDubaiLocation` (scraper.go:471-485), over the text of the location
selector and the node's full text. -/
def extractDubaiLocation (locSel fullText : List Char) : List Char :=
  trimGo (if locSel = [] then
    (match scanPos locTry fullText with
     | some run => trimGo run
     | none => [])
  else locSel)

/-- The normalized record (`Property`, scraper.go:188-202). -/
structure Property where
  id : List Char
  title : List Char
  price : ℚ
  currency : List Char
  location : List Char
  description : List Char
  bedrooms : ℕ
  bathrooms : ℕ
  areaSqFt : ℚ
  url : List Char
  scrapedAt : ℕ
  source : List Char
deriving DecidableEq

/-- Outcome of one `http.Get`: a transport error or a response carrying a status
code and a body. -/
inductive FetchOutcome (δ : Type) where
  | transportError
  | response (status : ℕ) (body : δ)
deriving DecidableEq

/-- Outcome of `goquery.NewDocumentFromReader` on a body: a parse failure or the
list of listing nodes the document's selectors produce. -/
inductive ParsedDoc (ν : Type) where
  | parseFail
  | nodes (ns : List ν)
deriving DecidableEq

/-- One Nepal listing node (one element of the selection
`article, .property-item, .listing-item`), described by the texts its inner
selectors yield.  `obsTime` is the `UnixNano` reading observed while the node is
processed; `href` is the `href` of the first anchor ("" when absent, as
`goquery.Attr` returns). -/
structure NepalNode where
  obsTime : ℕ
  codeText : List Char
  titleText : List Char
  priceText : List Char
  locationText : List Char
  href : List Char
  fullText : List Char
deriving DecidableEq

/-- One Dubai listing node (one element of `a[href*='/international/ae/']`).
`hrefAttr` is `none` when the attribute does not exist; `text` is `s.Text()`. -/
structure DubaiNode where
  obsTime : ℕ
  hrefAttr : Option (List Char)
  text : List Char
  innerTitle : List Char
  priceText : List Char
  locSel : List Char
deriving DecidableEq

/-- Source identifier of the Nepal site (scraper.go:232). -/
def nepalSource : List Char := "realestateinnepal.com".toList

/-- Source identifier of the Dubai site (scraper.go:238). -/
def dubaiSource : List Char := "realestate.com.au/dubai".toList

/-- Base origin used to absolutize Nepal listing links (scraper.go:422). -/
def nepalBase : List Char := "https://www.realestateinnepal.com".toList

/-- Base origin used to absolutize Dubai listing links (scraper.go:322). -/
def dubaiBase : List Char := "https://www.realestate.com.au".toList

/-- Fallback identifier `fmt.Sprintf("nepal-%d-%d", time.Now().UnixNano(), i)`
(scraper.go:397). -/
def nepalFallbackID (t i : ℕ) : List Char :=
  "nepal-".toList ++ natRepr t ++ "-".toList ++ natRepr i

/-- Generated identifier `fmt.Sprintf("dubai-%d-%d", time.Now().UnixNano(), i)`
(scraper.go:344). -/
def dubaiFallbackID (t i : ℕ) : List Char :=
  "dubai-".toList ++ natRepr t ++ "-".toList ++ natRepr i

/-- URL resolution of the Nepal strategy (scraper.go:421-423): a non-empty link
without the `http` prefix is prefixed with the base origin; an empty link stays
empty. -/
def resolveNepalURL (href : List Char) : List Char :=
  if href ≠ [] ∧ ¬ listPrefix "http".toList href = true then nepalBase ++ href else href

/-- Construction of one Nepal listing from node `n` at position `i` on its page
(scraper.go:392-447). -/
def nepalListing (src : List Char) (i : ℕ) (n : NepalNode) : Property :=
  { id := if trimGo n.codeText = [] then nepalFallbackID n.obsTime i else trimGo n.codeText
    title := trimGo n.titleText
    price := (parsePrice (trimGo n.priceText)).1
    currency := (parsePrice (trimGo n.priceText)).2
    location := trimGo n.locationText
    description :=
      if trimGo n.locationText ≠ [] ∧ trimGo n.locationText ≠ trimGo n.titleText then
        trimGo n.titleText ++ " - ".toList ++ trimGo n.locationText
      else trimGo n.titleText
    bedrooms := extractBedrooms n.fullText
    bathrooms := extractBathrooms n.fullText
    areaSqFt := extractArea n.fullText
    url := resolveNepalURL n.href
    scrapedAt := n.obsTime
    source := src }

/-- Listings produced from one successfully parsed Nepal page: every node yields a
record (the Nepal strategy drops nothing, scraper.go:434-448). -/
def nepalDocProps (src : List Char) (body : ParsedDoc NepalNode) : List Property :=
  match body with
  | .parseFail => []
  | .nodes ns => ns.enum.map (fun q => nepalListing src q.1 q.2)

/-- One (source, page) unit of the Nepal loop (scraper.go:369-452): a transport
error or a non-200 status or an unparsable body is logged and skipped, a 200
response proceeds to parsing and extraction. -/
def nepalPageProps (src : List Char) (r : FetchOutcome (ParsedDoc NepalNode)) :
    List Property :=
  match r with
  | .transportError => []
  | .response st body => if st = 200 then nepalDocProps src body else []

/-- `scrapeNepalProperties` (scraper.go:368-453): the pages are visited in order
and every page's records are delivered. -/
def scrapeNepalProperties (src : List Char)
    (pages : List (FetchOutcome (ParsedDoc NepalNode))) : List Property :=
  pages.flatMap (nepalPageProps src)

/-- The record the Dubai strategy builds for node `n` (position `i`) once its link
`href` passed the filter (scraper.go:313-359).  The bathroom count is the
hard-coded zero of line 354. -/
def dubaiMk (src : List Char) (i : ℕ) (n : DubaiNode) (href : List Char) : Property :=
  { id := dubaiFallbackID n.obsTime i
    title := if trimGo n.text = [] then n.innerTitle else trimGo n.text
    price := (parseDubaiPrice n.priceText).1
    currency := (parseDubaiPrice n.priceText).2
    location := extractDubaiLocation n.locSel n.text
    description := (if trimGo n.text = [] then n.innerTitle else trimGo n.text) ++
      " - ".toList ++ extractDubaiLocation n.locSel n.text
    bedrooms := extractBedrooms n.text
    bathrooms := 0
    areaSqFt := extractDubaiArea n.text
    url := if listPrefix "http".toList href then href else dubaiBase ++ href
    scrapedAt := n.obsTime
    source := src }

/-- Per-node behaviour of the Dubai strategy (scraper.go:313-365): nodes without a
link containing `/international/ae/` are skipped, and a built record is delivered
only when its title is non-empty and its price is positive (line 362). -/
def dubaiNodeProps (src : List Char) (i : ℕ) (n : DubaiNode) : List Property :=
  match n.hrefAttr with
  | none => []
  | some href =>
    if containsSub "/international/ae/".toList href then
      (if ¬ (dubaiMk src i n href).title = [] ∧ 0 < (dubaiMk src i n href).price then
        [dubaiMk src i n href] else [])
    else []

/-- Listings produced from a successfully parsed Dubai page. -/
def dubaiDocProps (src : List Char) (body : ParsedDoc DubaiNode) : List Property :=
  match body with
  | .parseFail => []
  | .nodes ns => ns.enum.flatMap (fun q => dubaiNodeProps src q.1 q.2)

/-- `scrapeDubaiProperties` (scraper.go:290-366): single page; transport errors,
non-200 statuses and parse failures are logged and the source contributes
nothing. -/
def scrapeDubaiProperties (src : List Char) (r : FetchOutcome (ParsedDoc DubaiNode)) :
    List Property :=
  match r with
  | .transportError => []
  | .response st body => if st = 200 then dubaiDocProps src body else []

/-- Classification of one page fetch, mirroring the error branches of
scraper.go:294-310 and 373-389: the status test performed by both strategies is
`StatusCode != 200`. -/
inductive PageStatus where
  | failedTransport
  | failedStatus (code : ℕ)
  | failedParse
  | parsed (nodeCount : ℕ)
deriving DecidableEq

/-- Whether the unit was skipped rather than processed. -/
def PageStatus.isFailed : PageStatus → Bool
  | .parsed _ => false
  | _ => true

/-- How a fetch outcome is classified by the scraper's shared branch structure. -/
def pageStatus {ν : Type} (r : FetchOutcome (ParsedDoc ν)) : PageStatus :=
  match r with
  | .transportError => .failedTransport
  | .response st body =>
    if st = 200 then
      (match body with
       | .parseFail => .failedParse
       | .nodes ns => .parsed ns.length)
    else .failedStatus st

/-- The complete collection a run produces (main, scraper.go:225-288): both source
strategies feed one channel; the artifact is the set of all delivered listings.
Delivery order between the two concurrent sources is unspecified, so the fixed
concatenation below is a canonical ordering and statements about it are read up to
permutation. -/
def runCollected (nepalPages : List (FetchOutcome (ParsedDoc NepalNode)))
    (dubaiFetch : FetchOutcome (ParsedDoc DubaiNode)) : List Property :=
  scrapeNepalProperties nepalSource nepalPages ++ scrapeDubaiProperties dubaiSource dubaiFetch

/-- Exit status of `main` (scraper.go:277-288): `log.Fatalf` (status 1) fires only
when serializing or persisting the final artifact fails; fetch and parse failures
are logged and never reach this decision. -/
def runExitCode (nepalPages : List (FetchOutcome (ParsedDoc NepalNode)))
    (dubaiFetch : FetchOutcome (ParsedDoc DubaiNode)) (saveOk : Bool) : ℕ :=
  if saveOk then 0 else 1

/-- Collector model (scraper.go:242-254 and 271-287).  `delivered` is the sequence
of listings received from the unbuffered channel, in receive order; every send is
synchronous, so all of them precede the return of `wg.Wait()` (line 271).  The
collector goroutine appends them to the shared slice under `mu` (lines 249-253), so
the slice is always a prefix of `delivered`; `drained` is the number of appends it
has completed when `main` reads the slice at line 278.  `main` neither joins the
collector goroutine nor takes `mu` for that read — the only separation is the
1-second `time.Sleep` of line 274, which creates no happens-before edge — so every
`drained ≤ delivered.length` is a reachable schedule. -/
def collectorRead (delivered : List Property) (drained : ℕ) : List Property :=
  delivered.take drained

/-- Whether a body failed to parse as a document. -/
def ParsedDoc.isParseFail {ν : Type} : ParsedDoc ν → Bool
  | .parseFail => true
  | .nodes _ => false

/-- A Nepal node with no source-provided code, observed at clock value 99. -/
def c3node : NepalNode :=
  { obsTime := 99, codeText := [], titleText := [], priceText := [],
    locationText := [], href := [], fullText := [] }

/-- Two pages of the Nepal source, each with one code-less node, both observed at
the same `UnixNano` reading (two concurrent extractions, or a clock whose
resolution is coarser than the emission rate). -/
def c3pages : List (FetchOutcome (ParsedDoc NepalNode)) :=
  [FetchOutcome.response 200 (ParsedDoc.nodes [c3node]),
   FetchOutcome.response 200 (ParsedDoc.nodes [c3node])]

/-- A Nepal node whose anchor has no link at all. -/
def c7node : NepalNode :=
  { obsTime := 5, codeText := "K1".toList, titleText := "T".toList, priceText := [],
    locationText := [], href := [], fullText := [] }

/-- A Dubai node with a relative link, used to check URL absolutization. -/
def c7dnode : DubaiNode :=
  { obsTime := 11, hrefAttr := some "/international/ae/flat-2".toList,
    text := "Flat".toList, innerTitle := [], priceText := "AED 9".toList, locSel := [] }

/-- The record the Dubai strategy emits for `c7dnode`. -/
def c7dprop : Property :=
  { id := "dubai-11-0".toList, title := "Flat".toList, price := 9,
    currency := "AED".toList, location := [], description := "Flat - ".toList,
    bedrooms := 0, bathrooms := 0, areaSqFt := 0,
    url := "https://www.realestate.com.au/international/ae/flat-2".toList,
    scrapedAt := 11, source := dubaiSource }

/-- A Dubai node with a title and a positive price. -/
def c8dnode : DubaiNode :=
  { obsTime := 3, hrefAttr := some "/international/ae/villa-9".toList,
    text := "Villa".toList, innerTitle := [], priceText := "AED 7".toList,
    locSel := "Marina".toList }

/-- The record the Dubai strategy emits for `c8dnode`. -/
def c8dprop : Property :=
  { id := "dubai-3-0".toList, title := "Villa".toList, price := 7,
    currency := "AED".toList, location := "Marina".toList,
    description := "Villa - Marina".toList, bedrooms := 0, bathrooms := 0,
    areaSqFt := 0,
    url := "https://www.realestate.com.au/international/ae/villa-9".toList,
    scrapedAt := 3, source := dubaiSource }

/-- A Nepal node carrying no price text at all (price sentinel 0, currency ""). -/
def c8zNode : NepalNode :=
  { obsTime := 4, codeText := "Z9".toList, titleText := [], priceText := [],
    locationText := [], href := [], fullText := [] }

/-- A delivered listing used to exhibit a collector schedule. -/
def c9prop : Property :=
  { id := "p1".toList, title := "lost listing".toList, price := 1, currency := [],
    location := [], description := [], bedrooms := 0, bathrooms := 0, areaSqFt := 0,
    url := [], scrapedAt := 0, source := nepalSource }

/-- A Dubai node whose full text plainly advertises two bathrooms. -/
def c10node : DubaiNode :=
  { obsTime := 7, hrefAttr := some "/international/ae/apt-1".toList,
    text := "2 Bath home".toList, innerTitle := [], priceText := "AED 5".toList,
    locSel := [] }

/-- The record the Dubai strategy emits for `c10node`. -/
def c10prop : Property :=
  { id := "dubai-7-0".toList, title := "2 Bath home".toList, price := 5,
    currency := "AED".toList, location := [], description := "2 Bath home - ".toList,
    bedrooms := 0, bathrooms := 0, areaSqFt := 0,
    url := "https://www.realestate.com.au/international/ae/apt-1".toList,
    scrapedAt := 7, source := dubaiSource }

/-- An area text whose numeric value (10^309) overflows `float64`. -/
def c2hugeText : List Char := '1' :: (List.replicate 309 '0' ++ " m2".toList)

theorem takeWhile_eq_self_of_all {α : Type} {p : α → Bool} {l : List α}
    (h : ∀ a ∈ l, p a = true) : l.takeWhile p = l := by
  induction l with
  | nil => rfl
  | cons a t ih =>
    rw [List.takeWhile_cons_of_pos (h a (List.mem_cons_self a t)),
      ih (fun b hb => h b (List.mem_cons_of_mem a hb))]

theorem takeWhile_append_of_all {α : Type} {p : α → Bool} {l₁ l₂ : List α}
    (h : ∀ a ∈ l₁, p a = true) : (l₁ ++ l₂).takeWhile p = l₁ ++ l₂.takeWhile p := by
  induction l₁ with
  | nil => rfl
  | cons a t ih =>
    rw [List.cons_append, List.takeWhile_cons_of_pos (h a (List.mem_cons_self a t)),
      ih (fun b hb => h b (List.mem_cons_of_mem a hb)), List.cons_append]

theorem takeWhile_eq_nil_of_head {α : Type} {p : α → Bool} {l : List α}
    (h : ∀ a, l.head? = some a → p a = false) : l.takeWhile p = [] := by
  cases l with
  | nil => rfl
  | cons a t =>
    rw [List.takeWhile_cons_of_neg]
    rw [h a rfl]
    exact Bool.false_ne_true

theorem dropWhile_append_of_all {α : Type} {p : α → Bool} {l₁ l₂ : List α}
    (h : ∀ a ∈ l₁, p a = true) : (l₁ ++ l₂).dropWhile p = l₂.dropWhile p := by
  induction l₁ with
  | nil => rfl
  | cons a t ih =>
    rw [List.cons_append, List.dropWhile_cons_of_pos (h a (List.mem_cons_self a t)),
      ih (fun b hb => h b (List.mem_cons_of_mem a hb))]

theorem dropWhile_eq_self_of_head {α : Type} {p : α → Bool} {l : List α}
    (h : ∀ a, l.head? = some a → p a = false) : l.dropWhile p = l := by
  cases l with
  | nil => rfl
  | cons a t =>
    rw [List.dropWhile_cons_of_neg]
    rw [h a rfl]
    exact Bool.false_ne_true

theorem sat_of_mem_takeWhile {α : Type} {p : α → Bool} {l : List α} {a : α}
    (h : a ∈ l.takeWhile p) : p a = true := by
  induction l with
  | nil => cases h
  | cons b t ih =>
    rw [List.takeWhile_cons] at h
    by_cases hb : p b = true
    · rw [if_pos hb] at h
      rcases List.mem_cons.mp h with h1 | h2
      · rwa [h1]
      · exact ih h2
    · rw [if_neg hb] at h
      cases h

theorem mem_of_mem_takeWhile {α : Type} {p : α → Bool} {l : List α} {a : α}
    (h : a ∈ l.takeWhile p) : a ∈ l := by
  induction l with
  | nil => cases h
  | cons b t ih =>
    rw [List.takeWhile_cons] at h
    by_cases hb : p b = true
    · rw [if_pos hb] at h
      rcases List.mem_cons.mp h with h1 | h2
      · rw [h1]; exact List.mem_cons_self b t
      · exact List.mem_cons_of_mem b (ih h2)
    · rw [if_neg hb] at h
      cases h

theorem mem_of_mem_dropWhile {α : Type} {p : α → Bool} {l : List α} {a : α}
    (h : a ∈ l.dropWhile p) : a ∈ l := by
  induction l with
  | nil => cases h
  | cons b t ih =>
    rw [List.dropWhile_cons] at h
    by_cases hb : p b = true
    · rw [if_pos hb] at h
      exact List.mem_cons_of_mem b (ih h)
    · rw [if_neg hb] at h
      exact h

theorem dropWhile_eq_self_of_all {α : Type} {p : α → Bool} {l : List α}
    (h : ∀ a ∈ l, p a = false) : l.dropWhile p = l := by
  cases l with
  | nil => rfl
  | cons b t =>
    apply dropWhile_eq_self_of_head
    intro a ha
    rw [List.head?_cons] at ha
    rw [← Option.some_inj.mp ha]
    exact h b (List.mem_cons_self b t)

theorem filter_eq_self_of_all {α : Type} {p : α → Bool} {l : List α}
    (h : ∀ a ∈ l, p a = true) : l.filter p = l := by
  induction l with
  | nil => rfl
  | cons a t ih =>
    rw [List.filter_cons_of_pos (h a (List.mem_cons_self a t)),
      ih (fun b hb => h b (List.mem_cons_of_mem a hb))]

theorem filter_eq_nil_of_all {α : Type} {p : α → Bool} {l : List α}
    (h : ∀ a ∈ l, p a = false) : l.filter p = [] := by
  induction l with
  | nil => rfl
  | cons a t ih =>
    rw [List.filter_cons_of_neg, ih (fun b hb => h b (List.mem_cons_of_mem a hb))]
    rw [h a (List.mem_cons_self a t)]
    exact Bool.false_ne_true

theorem listPrefix_append_self (l r : List Char) : listPrefix l (l ++ r) = true := by
  induction l with
  | nil => rfl
  | cons a t ih => simp [listPrefix, ih]

theorem listPrefix_extend {a b : List Char} (r : List Char) (h : listPrefix a b = true) :
    listPrefix a (b ++ r) = true := by
  induction a generalizing b with
  | nil => rfl
  | cons x xs ih =>
    cases b with
    | nil => cases h
    | cons y ys =>
      rw [listPrefix, Bool.and_eq_true] at h
      rw [List.cons_append, listPrefix, Bool.and_eq_true]
      exact ⟨h.1, ih h.2⟩

theorem scanPos_some {α : Type} {f : List Char → Option α} {s : List Char} {a : α}
    (h : f s = some a) : scanPos f s = some a := by
  cases s with
  | nil => exact h
  | cons c t => rw [scanPos, h]

theorem scanPos_skip {α : Type} {f : List Char → Option α} {g : Char → Bool}
    (hf : ∀ c t, g c = false → f (c :: t) = none) :
    ∀ {pre s : List Char}, (∀ c ∈ pre, g c = false) →
      scanPos f (pre ++ s) = scanPos f s := by
  intro pre
  induction pre with
  | nil => intro s _; rfl
  | cons c t ih =>
    intro s h
    rw [List.cons_append, scanPos, hf c (t ++ s) (h c (List.mem_cons_self c t)),
      ih (fun b hb => h b (List.mem_cons_of_mem c hb))]

theorem scanPos_suffix {α : Type} {f : List Char → Option α} {s : List Char} {a : α}
    (h : scanPos f s = some a) : ∃ t, t <:+ s ∧ f t = some a := by
  induction s with
  | nil => exact ⟨[], List.suffix_rfl, h⟩
  | cons c t ih =>
    rw [scanPos] at h
    cases hf : f (c :: t) with
    | some b =>
      rw [hf] at h
      refine ⟨c :: t, List.suffix_rfl, ?_⟩
      rw [hf]
      exact h
    | none =>
      rw [hf] at h
      obtain ⟨u, hu, hfu⟩ := ih h
      exact ⟨u, hu.trans (List.suffix_cons c t), hfu⟩

theorem isDigit_spec {c : Char} : isDigit c = true ↔ 48 ≤ c.toNat ∧ c.toNat ≤ 57 := by
  simp [isDigit]

theorem isCurrencyCh_spec {c : Char} : isCurrencyCh c = true ↔
    (65 ≤ c.toNat ∧ c.toNat ≤ 90) ∨ c.toNat = 36 ∨ c.toNat = 8364 ∨ c.toNat = 163 := by
  simp [isCurrencyCh, isUpper, or_assoc]

theorem isPerlSpace_spec {c : Char} : isPerlSpace c = true ↔
    c.toNat = 9 ∨ c.toNat = 10 ∨ c.toNat = 12 ∨ c.toNat = 13 ∨ c.toNat = 32 := by
  simp [isPerlSpace]

theorem isUniSpace_spec {c : Char} : isUniSpace c = true ↔
    c.toNat = 9 ∨ c.toNat = 10 ∨ c.toNat = 11 ∨ c.toNat = 12 ∨ c.toNat = 13 ∨
    c.toNat = 32 ∨ c.toNat = 133 ∨ c.toNat = 160 := by
  simp [isUniSpace]

theorem isNumCh_spec {c : Char} : isNumCh c = true ↔
    (48 ≤ c.toNat ∧ c.toNat ≤ 57) ∨ c.toNat = 46 := by
  simp [isNumCh, isDigit]

theorem digit_not_currency {c : Char} (h : isDigit c = true) : isCurrencyCh c = false := by
  rw [Bool.eq_false_iff]
  intro hc
  rw [isCurrencyCh_spec] at hc
  rw [isDigit_spec] at h
  omega

theorem digit_not_perlSpace {c : Char} (h : isDigit c = true) : isPerlSpace c = false := by
  rw [Bool.eq_false_iff]
  intro hc
  rw [isPerlSpace_spec] at hc
  rw [isDigit_spec] at h
  omega

theorem digit_isNumCh {c : Char} (h : isDigit c = true) : isNumCh c = true := by
  rw [isNumCh_spec]
  rw [isDigit_spec] at h
  exact Or.inl h

theorem digit_not_dot {c : Char} (h : isDigit c = true) : ¬ c.toNat = 46 := by
  rw [isDigit_spec] at h
  omega

theorem digit_not_comma {c : Char} (h : isDigit c = true) : ¬ c.toNat = 44 := by
  rw [isDigit_spec] at h
  omega

theorem digit_not_uniSpace {c : Char} (h : isDigit c = true) : isUniSpace c = false := by
  rw [Bool.eq_false_iff]
  intro hc
  rw [isUniSpace_spec] at hc
  rw [isDigit_spec] at h
  omega

theorem perlSpace_not_currency {c : Char} (h : isPerlSpace c = true) :
    isCurrencyCh c = false := by
  rw [Bool.eq_false_iff]
  intro hc
  rw [isCurrencyCh_spec] at hc
  rw [isPerlSpace_spec] at h
  omega

theorem perlSpace_not_digit {c : Char} (h : isPerlSpace c = true) : isDigit c = false := by
  rw [Bool.eq_false_iff]
  intro hc
  rw [isDigit_spec] at hc
  rw [isPerlSpace_spec] at h
  omega

theorem perlSpace_not_dot {c : Char} (h : isPerlSpace c = true) : ¬ c.toNat = 46 := by
  rw [isPerlSpace_spec] at h
  omega

theorem perlSpace_not_comma {c : Char} (h : isPerlSpace c = true) : ¬ c.toNat = 44 := by
  rw [isPerlSpace_spec] at h
  omega

theorem currency_not_uniSpace {c : Char} (h : isCurrencyCh c = true) :
    isUniSpace c = false := by
  rw [Bool.eq_false_iff]
  intro hc
  rw [isUniSpace_spec] at hc
  rw [isCurrencyCh_spec] at h
  omega

theorem currency_not_comma {c : Char} (h : isCurrencyCh c = true) : ¬ c.toNat = 44 := by
  rw [isCurrencyCh_spec] at h
  omega

theorem numCh_cases {c : Char} (h : isNumCh c = true) :
    isDigit c = true ∨ c.toNat = 46 := by
  rw [isNumCh_spec] at h
  rcases h with h | h
  · exact Or.inl (isDigit_spec.mpr h)
  · exact Or.inr h

theorem dropWhile_eq_nil_of_all {α : Type} {p : α → Bool} {l : List α}
    (h : ∀ a ∈ l, p a = true) : l.dropWhile p = [] := by
  induction l with
  | nil => rfl
  | cons a t ih =>
    rw [List.dropWhile_cons_of_pos (h a (List.mem_cons_self a t)),
      ih (fun b hb => h b (List.mem_cons_of_mem a hb))]

theorem trimGo_eq_self_of_no_uniSpace {l : List Char}
    (h : ∀ c ∈ l, isUniSpace c = false) : trimGo l = l := by
  unfold trimGo
  rw [dropWhile_eq_self_of_all h,
    dropWhile_eq_self_of_all (fun c hc => h c (List.mem_reverse.mp hc)),
    List.reverse_reverse]

theorem lt_floatMaxQ_of_lt {n : ℕ} (h : n < 2 ^ 53) : (n : ℚ) < floatMaxQ := by
  have hb : (2 : ℕ) ^ 53 + 2 ^ 970 ≤ 2 ^ 1024 := by
    have a : (2 : ℕ) ^ 53 ≤ 2 ^ 1023 := Nat.pow_le_pow_right (by norm_num) (by norm_num)
    have b : (2 : ℕ) ^ 970 ≤ 2 ^ 1023 := Nat.pow_le_pow_right (by norm_num) (by norm_num)
    calc (2 : ℕ) ^ 53 + 2 ^ 970 ≤ 2 ^ 1023 + 2 ^ 1023 := Nat.add_le_add a b
    _ = 2 ^ 1024 := by rw [← two_mul, ← pow_succ']
  have hN : n < 2 ^ 1024 - 2 ^ 970 := by omega
  show (n : ℚ) < ((2 ^ 1024 - 2 ^ 970 : ℕ) : ℚ)
  exact_mod_cast hN

theorem goParseFloat_digits {ds : List Char} (hne : ds ≠ [])
    (hds : ∀ c ∈ ds, isDigit c = true) (hv : natOf ds < 2 ^ 53) :
    goParseFloat ds = some ((natOf ds : ℚ)) := by
  have hdec : decimalValue ds [] = (natOf ds : ℚ) := by
    simp [decimalValue, natOf]
  have hfil : ds.filter (fun c => decide (c.toNat = 46)) = [] :=
    filter_eq_nil_of_all (fun a ha => by
      rw [decide_eq_false_iff_not]
      exact digit_not_dot (hds a ha))
  have hany : ds.any isDigit = true := by
    obtain ⟨d, t, rfl⟩ := List.exists_cons_of_ne_nil hne
    rw [List.any_cons, hds d (List.mem_cons_self d t), Bool.true_or]
  have htw : ds.takeWhile (fun c => decide (¬ c.toNat = 46)) = ds :=
    takeWhile_eq_self_of_all (fun a ha => by
      rw [decide_eq_true_eq]
      exact digit_not_dot (hds a ha))
  have hdw : ds.dropWhile (fun c => decide (¬ c.toNat = 46)) = [] :=
    dropWhile_eq_nil_of_all (fun a ha => by
      rw [decide_eq_true_eq]
      exact digit_not_dot (hds a ha))
  unfold goParseFloat
  rw [hfil, htw, hdw]
  rw [if_pos (by simp [hany])]
  rw [List.drop_nil, hdec]
  rw [if_neg (not_le.mpr (lt_floatMaxQ_of_lt hv))]

theorem goParseFloatNum_int {ds : List Char} (hv : natOf ds < 2 ^ 53) :
    goParseFloatNum ds [] = some ((natOf ds : ℚ)) := by
  have hdec : decimalValue ds [] = (natOf ds : ℚ) := by
    simp [decimalValue, natOf]
  unfold goParseFloatNum
  rw [hdec, if_neg (not_le.mpr (lt_floatMaxQ_of_lt hv))]

theorem goAtoi_some {ds : List Char} (hne : ds ≠ [])
    (hle : natOf ds ≤ 9223372036854775807) : goAtoi ds = some (natOf ds) := by
  unfold goAtoi
  rw [if_neg hne, if_pos hle]

theorem priceTry_sound {s cur tok : List Char} (h : priceTry s = some (cur, tok)) :
    tok ≠ [] ∧ ∀ c ∈ tok, isNumCh c = true ∧ c ∈ s := by
  unfold priceTry at h
  by_cases hc : ((s.dropWhile isCurrencyCh).dropWhile isPerlSpace).takeWhile isNumCh = []
  · rw [if_pos hc] at h
    cases h
  · rw [if_neg hc] at h
    injection h with h'
    injection h' with h1 h2
    constructor
    · rw [← h2]
      exact hc
    · intro c hcm
      rw [← h2] at hcm
      exact ⟨sat_of_mem_takeWhile hcm,
        mem_of_mem_dropWhile (mem_of_mem_dropWhile (mem_of_mem_takeWhile hcm))⟩

theorem parsePrice_stripCommas (s : List Char) :
    parsePrice s = parsePrice (stripCommas s) := by
  have h : stripCommas (stripCommas s) = stripCommas s :=
    filter_eq_self_of_all (fun a ha => (List.mem_filter.mp ha).2)
  simp only [parsePrice, h]

theorem parsePrice_of_no_digit {s : List Char} (h : ∀ c ∈ s, isDigit c = false) :
    parsePrice s = (0, []) := by
  have h' : ∀ c ∈ stripCommas s, isDigit c = false :=
    fun c hc => h c (List.mem_of_mem_filter hc)
  cases hf : priceFind (stripCommas s) with
  | none => simp only [parsePrice, hf]
  | some pr =>
    obtain ⟨cur, tok⟩ := pr
    obtain ⟨t, hsuf, htry⟩ := scanPos_suffix hf
    obtain ⟨hne, hall⟩ := priceTry_sound htry
    have hnone : goParseFloat tok = none := by
      unfold goParseFloat
      rw [if_neg]
      rintro ⟨-, hany⟩
      obtain ⟨c, hcm, hcd⟩ := List.any_eq_true.mp hany
      have hfd := h' c (hsuf.subset ((hall c hcm).2))
      rw [hfd] at hcd
      cases hcd
    simp only [parsePrice, hf, hnone]

theorem parsePrice_comp (cur ws ds rest : List Char)
    (hcur : ∀ c ∈ cur, isCurrencyCh c = true)
    (hws : ∀ c ∈ ws, isPerlSpace c = true)
    (hd : ds ≠ []) (hds : ∀ c ∈ ds, isDigit c = true)
    (hrest : ∀ c, rest.head? = some c → isNumCh c = false)
    (hcm : ∀ c ∈ rest, ¬ c.toNat = 44)
    (hv : natOf ds < 2 ^ 53) :
    parsePrice (cur ++ (ws ++ (ds ++ rest))) = ((natOf ds : ℚ), cur) := by
  obtain ⟨d, ds', rfl⟩ := List.exists_cons_of_ne_nil hd
  have hd0 : isDigit d = true := hds d (List.mem_cons_self d ds')
  have hstrip : stripCommas (cur ++ (ws ++ (d :: ds' ++ rest))) =
      cur ++ (ws ++ (d :: ds' ++ rest)) := by
    apply filter_eq_self_of_all
    intro a ha
    rw [decide_eq_true_eq]
    rcases List.mem_append.mp ha with h1 | h2
    · exact currency_not_comma (hcur a h1)
    rcases List.mem_append.mp h2 with h3 | h4
    · exact perlSpace_not_comma (hws a h3)
    rcases List.mem_cons.mp h4 with h5 | h6
    · rw [h5]
      exact digit_not_comma hd0
    rcases List.mem_append.mp h6 with h7 | h8
    · exact digit_not_comma (hds a (List.mem_cons_of_mem d h7))
    · exact hcm a h8
  have hheadCur : ∀ a, (ws ++ (d :: ds' ++ rest)).head? = some a →
      isCurrencyCh a = false := by
    intro a ha
    cases ws with
    | nil =>
      rw [List.nil_append, List.cons_append, List.head?_cons] at ha
      rw [← Option.some_inj.mp ha]
      exact digit_not_currency hd0
    | cons w ws' =>
      rw [List.cons_append, List.head?_cons] at ha
      rw [← Option.some_inj.mp ha]
      exact perlSpace_not_currency (hws w (List.mem_cons_self w ws'))
  have hheadSp : ∀ a, (d :: ds' ++ rest).head? = some a → isPerlSpace a = false := by
    intro a ha
    rw [List.cons_append, List.head?_cons] at ha
    rw [← Option.some_inj.mp ha]
    exact digit_not_perlSpace hd0
  have h1 : (cur ++ (ws ++ (d :: ds' ++ rest))).takeWhile isCurrencyCh = cur := by
    rw [takeWhile_append_of_all hcur, takeWhile_eq_nil_of_head hheadCur, List.append_nil]
  have h2 : (cur ++ (ws ++ (d :: ds' ++ rest))).dropWhile isCurrencyCh =
      ws ++ (d :: ds' ++ rest) := by
    rw [dropWhile_append_of_all hcur]
    exact dropWhile_eq_self_of_head hheadCur
  have h3 : (ws ++ (d :: ds' ++ rest)).dropWhile isPerlSpace = d :: ds' ++ rest := by
    rw [dropWhile_append_of_all hws]
    exact dropWhile_eq_self_of_head hheadSp
  have h4 : (d :: ds' ++ rest).takeWhile isNumCh = d :: ds' := by
    rw [show d :: ds' ++ rest = (d :: ds') ++ rest from rfl,
      takeWhile_append_of_all (fun c hc => digit_isNumCh (hds c hc)),
      takeWhile_eq_nil_of_head hrest, List.append_nil]
  have htry : priceTry (cur ++ (ws ++ (d :: ds' ++ rest))) = some (cur, d :: ds') := by
    unfold priceTry
    rw [h2, h3, h4, h1, if_neg (List.cons_ne_nil d ds')]
  have hfind : priceFind (cur ++ (ws ++ (d :: ds' ++ rest))) = some (cur, d :: ds') :=
    scanPos_some htry
  have htrim : trimGo cur = cur :=
    trimGo_eq_self_of_no_uniSpace (fun c hc => currency_not_uniSpace (hcur c hc))
  simp only [parsePrice, hstrip, hfind, goParseFloat_digits (List.cons_ne_nil d ds') hds hv,
    htrim]

theorem unitNumTry_start_none {lit : List Char} {c : Char} {t : List Char}
    (h : isDigit c = false) : unitNumTry lit (c :: t) = none := by
  unfold unitNumTry
  rw [if_pos]
  rw [List.takeWhile_cons_of_neg]
  rw [h]
  exact Bool.false_ne_true

theorem countTry_start_none {lit : List Char} {c : Char} {t : List Char}
    (h : isDigit c = false) : countTry lit (c :: t) = none := by
  unfold countTry
  rw [if_pos]
  rw [List.takeWhile_cons_of_neg]
  rw [h]
  exact Bool.false_ne_true

theorem unitNumAfter_fst {lit ds r a b : List Char}
    (h : unitNumAfter lit ds r = some (a, b)) : a = ds := by
  cases r with
  | nil =>
    simp only [unitNumAfter] at h
    by_cases hp : listPrefix lit [] = true
    · rw [if_pos hp] at h
      injection h with h'
      injection h' with h1 h2
      exact h1.symm
    · rw [if_neg hp] at h
      cases h
  | cons c t =>
    simp only [unitNumAfter] at h
    by_cases h46 : c.toNat = 46 ∧ t.takeWhile isDigit ≠ []
    · rw [if_pos h46] at h
      by_cases hp : listPrefix lit ((t.dropWhile isDigit).dropWhile isPerlSpace) = true
      · rw [if_pos hp] at h
        injection h with h'
        injection h' with h1 h2
        exact h1.symm
      · rw [if_neg hp] at h
        cases h
    · rw [if_neg h46] at h
      by_cases hp : listPrefix lit ((c :: t).dropWhile isPerlSpace) = true
      · rw [if_pos hp] at h
        injection h with h'
        injection h' with h1 h2
        exact h1.symm
      · rw [if_neg hp] at h
        cases h

theorem unitNumTry_sound {lit s ds fs : List Char}
    (h : unitNumTry lit s = some (ds, fs)) :
    ds ≠ [] ∧ ∀ c ∈ ds, isDigit c = true ∧ c ∈ s := by
  unfold unitNumTry at h
  by_cases he : s.takeWhile isDigit = []
  · rw [if_pos he] at h
    cases h
  · rw [if_neg he] at h
    have hds := unitNumAfter_fst h
    rw [hds]
    refine ⟨he, fun c hc => ⟨sat_of_mem_takeWhile hc, mem_of_mem_takeWhile hc⟩⟩

theorem unitNumFind_none {lit s : List Char} (h : ∀ c ∈ s, isDigit c = false) :
    scanPos (unitNumTry lit) s = none := by
  cases hf : scanPos (unitNumTry lit) s with
  | none => rfl
  | some pr =>
    exfalso
    obtain ⟨ds, fs⟩ := pr
    obtain ⟨t, hsuf, htry⟩ := scanPos_suffix hf
    obtain ⟨hne, hall⟩ := unitNumTry_sound htry
    obtain ⟨d, ds', rfl⟩ := List.exists_cons_of_ne_nil hne
    have h1 := hall d (List.mem_cons_self d ds')
    have h2 := h d (hsuf.subset h1.2)
    rw [h1.1] at h2
    cases h2

theorem unitNumFind_comp (lit pre ds ws rest : List Char) {c0 : Char} {lt : List Char}
    (hlit : lit = c0 :: lt) (hl1 : isDigit c0 = false) (hl2 : isPerlSpace c0 = false)
    (hl3 : ¬ c0.toNat = 46)
    (hpre : ∀ c ∈ pre, isDigit c = false)
    (hd : ds ≠ []) (hds : ∀ c ∈ ds, isDigit c = true)
    (hws : ∀ c ∈ ws, isPerlSpace c = true) :
    scanPos (unitNumTry lit) (pre ++ (ds ++ (ws ++ (lit ++ rest)))) = some (ds, []) := by
  rw [scanPos_skip (fun c t hc => unitNumTry_start_none hc) hpre]
  apply scanPos_some
  have hhead : ∀ a, (ws ++ (lit ++ rest)).head? = some a → isDigit a = false := by
    intro a ha
    cases ws with
    | nil =>
      rw [List.nil_append, hlit, List.cons_append, List.head?_cons] at ha
      rw [← Option.some_inj.mp ha]
      exact hl1
    | cons w ws' =>
      rw [List.cons_append, List.head?_cons] at ha
      rw [← Option.some_inj.mp ha]
      exact perlSpace_not_digit (hws w (List.mem_cons_self w ws'))
  have htw : (ds ++ (ws ++ (lit ++ rest))).takeWhile isDigit = ds := by
    rw [takeWhile_append_of_all hds, takeWhile_eq_nil_of_head hhead, List.append_nil]
  have hdw : (ds ++ (ws ++ (lit ++ rest))).dropWhile isDigit = ws ++ (lit ++ rest) := by
    rw [dropWhile_append_of_all hds]
    exact dropWhile_eq_self_of_head hhead
  unfold unitNumTry
  rw [htw, hdw, if_neg hd]
  cases ws with
  | nil =>
    rw [List.nil_append, hlit, List.cons_append]
    simp only [unitNumAfter]
    rw [if_neg (fun hp => hl3 hp.1)]
    rw [List.dropWhile_cons_of_neg (by rw [hl2]; exact Bool.false_ne_true)]
    rw [← List.cons_append, ← hlit, if_pos (listPrefix_append_self lit rest)]
  | cons w ws' =>
    rw [List.cons_append]
    simp only [unitNumAfter]
    rw [if_neg (fun hp => perlSpace_not_dot (hws w (List.mem_cons_self w ws')) hp.1)]
    rw [List.dropWhile_cons_of_pos (hws w (List.mem_cons_self w ws'))]
    rw [dropWhile_append_of_all (fun c hc => hws c (List.mem_cons_of_mem w hc))]
    rw [dropWhile_eq_self_of_head (fun a ha => by
      rw [hlit, List.cons_append, List.head?_cons] at ha
      rw [← Option.some_inj.mp ha]
      exact hl2)]
    rw [if_pos (listPrefix_append_self lit rest)]

theorem countTry_sound {lit s ds : List Char} (h : countTry lit s = some ds) :
    ds ≠ [] ∧ ∀ c ∈ ds, isDigit c = true ∧ c ∈ s := by
  unfold countTry at h
  by_cases he : s.takeWhile isDigit = []
  · rw [if_pos he] at h
    cases h
  · rw [if_neg he] at h
    split at h
    · injection h with h'
      rw [← h']
      exact ⟨he, fun c hc => ⟨sat_of_mem_takeWhile hc, mem_of_mem_takeWhile hc⟩⟩
    · cases h

theorem countFind_none {lit s : List Char} (h : ∀ c ∈ s, isDigit c = false) :
    scanPos (countTry lit) s = none := by
  cases hf : scanPos (countTry lit) s with
  | none => rfl
  | some ds =>
    exfalso
    obtain ⟨t, hsuf, htry⟩ := scanPos_suffix hf
    obtain ⟨hne, hall⟩ := countTry_sound htry
    obtain ⟨d, ds', rfl⟩ := List.exists_cons_of_ne_nil hne
    have h1 := hall d (List.mem_cons_self d ds')
    have h2 := h d (hsuf.subset h1.2)
    rw [h1.1] at h2
    cases h2

theorem countFind_comp (lit pre ds ws rest : List Char) {c0 : Char} {lt : List Char}
    (hlit : lit = c0 :: lt) (hl1 : isDigit c0 = false) (hl2 : isPerlSpace c0 = false)
    (hpre : ∀ c ∈ pre, isDigit c = false)
    (hd : ds ≠ []) (hds : ∀ c ∈ ds, isDigit c = true)
    (hws : ∀ c ∈ ws, isPerlSpace c = true) :
    scanPos (countTry lit) (pre ++ (ds ++ (ws ++ (lit ++ rest)))) = some ds := by
  rw [scanPos_skip (fun c t hc => countTry_start_none hc) hpre]
  apply scanPos_some
  have hhead : ∀ a, (ws ++ (lit ++ rest)).head? = some a → isDigit a = false := by
    intro a ha
    cases ws with
    | nil =>
      rw [List.nil_append, hlit, List.cons_append, List.head?_cons] at ha
      rw [← Option.some_inj.mp ha]
      exact hl1
    | cons w ws' =>
      rw [List.cons_append, List.head?_cons] at ha
      rw [← Option.some_inj.mp ha]
      exact perlSpace_not_digit (hws w (List.mem_cons_self w ws'))
  have htw : (ds ++ (ws ++ (lit ++ rest))).takeWhile isDigit = ds := by
    rw [takeWhile_append_of_all hds, takeWhile_eq_nil_of_head hhead, List.append_nil]
  have hdw : (ds ++ (ws ++ (lit ++ rest))).dropWhile isDigit = ws ++ (lit ++ rest) := by
    rw [dropWhile_append_of_all hds]
    exact dropWhile_eq_self_of_head hhead
  unfold countTry
  rw [htw, hdw, if_neg hd]
  rw [dropWhile_append_of_all hws]
  rw [dropWhile_eq_self_of_head (fun a ha => by
    rw [hlit, List.cons_append, List.head?_cons] at ha
    rw [← Option.some_inj.mp ha]
    exact hl2)]
  rw [if_pos (listPrefix_append_self lit rest)]

theorem extractDubaiArea_comp (pre ds ws rest : List Char)
    (hpre : ∀ c ∈ pre, isDigit c = false)
    (hd : ds ≠ []) (hds : ∀ c ∈ ds, isDigit c = true)
    (hws : ∀ c ∈ ws, isPerlSpace c = true) (hv : natOf ds < 2 ^ 53) :
    extractDubaiArea (pre ++ (ds ++ (ws ++ ("m2".toList ++ rest)))) =
      (natOf ds : ℚ) * sqftPerM2 := by
  have hlit : ("m2".toList : List Char) = 'm' :: ['2'] := by decide
  have hfind := unitNumFind_comp "m2".toList pre ds ws rest hlit (by decide) (by decide)
    (by decide) hpre hd hds hws
  simp only [extractDubaiArea, hfind, goParseFloatNum_int hv]

theorem extractArea_comp (pre ds ws rest : List Char)
    (hpre : ∀ c ∈ pre, isDigit c = false)
    (hd : ds ≠ []) (hds : ∀ c ∈ ds, isDigit c = true)
    (hws : ∀ c ∈ ws, isPerlSpace c = true) (hv : natOf ds < 2 ^ 53) :
    extractArea (pre ++ (ds ++ (ws ++ ("sqft".toList ++ rest)))) = (natOf ds : ℚ) := by
  have hlit : ("sqft".toList : List Char) = 's' :: "qft".toList := by decide
  have hfind := unitNumFind_comp "sqft".toList pre ds ws rest hlit (by decide) (by decide)
    (by decide) hpre hd hds hws
  simp only [extractArea, hfind, goParseFloatNum_int hv]

theorem extractDubaiArea_no_digit {s : List Char} (h : ∀ c ∈ s, isDigit c = false) :
    extractDubaiArea s = 0 := by
  simp only [extractDubaiArea, unitNumFind_none h]

theorem extractArea_no_digit {s : List Char} (h : ∀ c ∈ s, isDigit c = false) :
    extractArea s = 0 := by
  simp only [extractArea, unitNumFind_none h]

theorem extractBedrooms_comp (pre ds ws rest : List Char)
    (hpre : ∀ c ∈ pre, isDigit c = false)
    (hd : ds ≠ []) (hds : ∀ c ∈ ds, isDigit c = true)
    (hws : ∀ c ∈ ws, isPerlSpace c = true)
    (hle : natOf ds ≤ 9223372036854775807) :
    extractBedrooms (pre ++ (ds ++ (ws ++ ("Bed".toList ++ rest)))) = natOf ds := by
  have hlit : ("Bed".toList : List Char) = 'B' :: "ed".toList := by decide
  have hfind := countFind_comp "Bed".toList pre ds ws rest hlit (by decide) (by decide)
    hpre hd hds hws
  simp only [extractBedrooms, hfind, goAtoi_some hd hle, Option.getD_some]

theorem extractBathrooms_comp (pre ds ws rest : List Char)
    (hpre : ∀ c ∈ pre, isDigit c = false)
    (hd : ds ≠ []) (hds : ∀ c ∈ ds, isDigit c = true)
    (hws : ∀ c ∈ ws, isPerlSpace c = true)
    (hle : natOf ds ≤ 9223372036854775807) :
    extractBathrooms (pre ++ (ds ++ (ws ++ ("Bath".toList ++ rest)))) = natOf ds := by
  have hlit : ("Bath".toList : List Char) = 'B' :: "ath".toList := by decide
  have hfind := countFind_comp "Bath".toList pre ds ws rest hlit (by decide) (by decide)
    hpre hd hds hws
  simp only [extractBathrooms, hfind, goAtoi_some hd hle, Option.getD_some]

theorem extractBedrooms_no_digit {s : List Char} (h : ∀ c ∈ s, isDigit c = false) :
    extractBedrooms s = 0 := by
  simp only [extractBedrooms, countFind_none h]

theorem extractBathrooms_no_digit {s : List Char} (h : ∀ c ∈ s, isDigit c = false) :
    extractBathrooms s = 0 := by
  simp only [extractBathrooms, countFind_none h]

theorem dubaiNodeProps_none {src : List Char} {i : ℕ} {n : DubaiNode}
    (h : n.hrefAttr = none) : dubaiNodeProps src i n = [] := by
  unfold dubaiNodeProps
  rw [h]

theorem dubaiNodeProps_some {src : List Char} {i : ℕ} {n : DubaiNode} {href : List Char}
    (h : n.hrefAttr = some href) : dubaiNodeProps src i n =
    (if containsSub "/international/ae/".toList href then
      (if ¬ (dubaiMk src i n href).title = [] ∧ 0 < (dubaiMk src i n href).price then
        [dubaiMk src i n href] else [])
    else []) := by
  unfold dubaiNodeProps
  rw [h]

theorem mem_dubaiNodeProps {src : List Char} {i : ℕ} {n : DubaiNode} {p : Property}
    (h : p ∈ dubaiNodeProps src i n) :
    ∃ href, p = dubaiMk src i n href ∧
      ¬ (dubaiMk src i n href).title = [] ∧ 0 < (dubaiMk src i n href).price := by
  cases hh : n.hrefAttr with
  | none =>
    rw [dubaiNodeProps_none hh] at h
    exact absurd h (List.not_mem_nil p)
  | some href =>
    rw [dubaiNodeProps_some hh] at h
    by_cases hc : containsSub "/international/ae/".toList href = true
    · rw [if_pos hc] at h
      by_cases he : ¬ (dubaiMk src i n href).title = [] ∧ 0 < (dubaiMk src i n href).price
      · rw [if_pos he] at h
        rcases List.mem_singleton.mp h with rfl
        exact ⟨href, rfl, he⟩
      · rw [if_neg he] at h
        exact absurd h (List.not_mem_nil p)
    · rw [if_neg hc] at h
      exact absurd h (List.not_mem_nil p)

theorem mem_scrapeDubai {src : List Char} {r : FetchOutcome (ParsedDoc DubaiNode)}
    {p : Property} (h : p ∈ scrapeDubaiProperties src r) :
    ∃ i n href, p = dubaiMk src i n href ∧
      ¬ (dubaiMk src i n href).title = [] ∧ 0 < (dubaiMk src i n href).price := by
  cases r with
  | transportError => exact absurd h (List.not_mem_nil p)
  | response st body =>
    simp only [scrapeDubaiProperties] at h
    by_cases hst : st = 200
    · rw [if_pos hst] at h
      cases body with
      | parseFail => exact absurd h (List.not_mem_nil p)
      | nodes ns =>
        have h' : p ∈ ns.enum.flatMap (fun q => dubaiNodeProps src q.1 q.2) := h
        obtain ⟨q, hq, hp⟩ := List.mem_flatMap.mp h'
        obtain ⟨href, hmk, hcond⟩ := mem_dubaiNodeProps hp
        exact ⟨q.1, q.2, href, hmk, hcond⟩
    · rw [if_neg hst] at h
      exact absurd h (List.not_mem_nil p)

/-- C1, counterexample.  The claim says the returned currency equals the text
preceding the numeric token.  For the input "Rs 100" that text is "Rs", but the
currency class of the regexp is `[A-Z$€£]`, "Rs" is not a run of it, and
`parsePrice` returns the price with an empty currency instead. -/
theorem C1_counterexample :
    parsePrice "Rs 100".toList = ((100 : ℚ), "".toList) ∧
    parsePrice "Rs 100".toList ≠ ((100 : ℚ), "Rs".toList) := by
  constructor
  · decide
  · decide

/-- C1, amended: after comma removal, `parsePrice` matches the leftmost occurrence
of an optional currency token — a run of characters from `[A-Z$€£]`, not arbitrary
preceding text — followed by optional whitespace and a nonempty `[\d.]` run; when
that run is a digit run (shown here for exactly representable values, below 2^53)
it returns its value together with the currency token (possibly empty); an input
with no digit at all yields the sentinel `(0, "")`; grouping commas never change
the result. -/
theorem C1_amended :
    (∀ cur ws ds rest : List Char,
      (∀ c ∈ cur, isCurrencyCh c = true) →
      (∀ c ∈ ws, isPerlSpace c = true) →
      ds ≠ [] → (∀ c ∈ ds, isDigit c = true) →
      (∀ c, rest.head? = some c → isNumCh c = false) →
      (∀ c ∈ rest, ¬ c.toNat = 44) →
      natOf ds < 2 ^ 53 →
      parsePrice (cur ++ (ws ++ (ds ++ rest))) = ((natOf ds : ℚ), cur)) ∧
    (∀ s : List Char, (∀ c ∈ s, isDigit c = false) → parsePrice s = (0, [])) ∧
    (∀ s : List Char, parsePrice s = parsePrice (stripCommas s)) :=
  ⟨fun cur ws ds rest h1 h2 h3 h4 h5 h6 h7 =>
    parsePrice_comp cur ws ds rest h1 h2 h3 h4 h5 h6 h7,
   fun _ h => parsePrice_of_no_digit h,
   fun s => parsePrice_stripCommas s⟩

/-- C1, witness: the amended statement at the concrete price text
"NPR 2,500,000". -/
theorem C1_amended_witness :
    parsePrice "NPR 2,500,000".toList = ((2500000 : ℚ), "NPR".toList) := by
  have h3 := C1_amended.2.2 "NPR 2,500,000".toList
  have h1 := C1_amended.1 "NPR".toList " ".toList "2500000".toList []
    (by decide) (by decide) (by decide) (by decide)
    (fun c hc => by cases hc) (fun c hc => absurd hc (List.not_mem_nil c)) (by decide)
  rw [h3, (by decide : stripCommas "NPR 2,500,000".toList =
    "NPR".toList ++ (" ".toList ++ ("2500000".toList ++ []))), h1]
  decide

/-- C2, counterexample.  The claim says every text with a metric value yields
`raw * 10.764`, but a 310-digit value overflows `float64`, `ParseFloat` reports a
range error, and `extractDubaiArea` returns the sentinel 0 instead. -/
theorem C2_counterexample :
    extractDubaiArea c2hugeText = 0 ∧
    ¬ extractDubaiArea c2hugeText = (10 ^ 309 : ℚ) * sqftPerM2 := by
  constructor
  · decide
  · decide

/-- C2, amended: for a metric (`m2`) token the extractor returns the raw value
times 10.764 and for an imperial (`sqft`) token the value passes through
unchanged, provided the value is within `float64` range (shown here in the exact
regime, below 2^53; beyond the overflow threshold the extractor returns 0, as the
counterexample shows); with no area token the result is 0; and "100 m2"
normalizes to 1076.4 sqft within a tolerance of 0.1. -/
theorem C2_area :
    (∀ pre ds ws rest : List Char,
      (∀ c ∈ pre, isDigit c = false) → ds ≠ [] → (∀ c ∈ ds, isDigit c = true) →
      (∀ c ∈ ws, isPerlSpace c = true) → natOf ds < 2 ^ 53 →
      extractDubaiArea (pre ++ (ds ++ (ws ++ ("m2".toList ++ rest)))) =
        (natOf ds : ℚ) * sqftPerM2 ∧
      extractArea (pre ++ (ds ++ (ws ++ ("sqft".toList ++ rest)))) = (natOf ds : ℚ)) ∧
    (∀ s : List Char, (∀ c ∈ s, isDigit c = false) →
      extractDubaiArea s = 0 ∧ extractArea s = 0) ∧
    extractDubaiArea "100 m2".toList = 1076.4 ∧
    |extractDubaiArea "100 m2".toList - 1076.4| ≤ 1 / 10 := by
  have h100 : extractDubaiArea "100 m2".toList = (1076.4 : ℚ) := by decide
  refine ⟨?_, ?_, h100, ?_⟩
  · intro pre ds ws rest h1 h2 h3 h4 h5
    exact ⟨extractDubaiArea_comp pre ds ws rest h1 h2 h3 h4 h5,
      extractArea_comp pre ds ws rest h1 h2 h3 h4 h5⟩
  · intro s h
    exact ⟨extractDubaiArea_no_digit h, extractArea_no_digit h⟩
  · rw [h100]
    norm_num

/-- C2, witness: the amended statement at "450 m2" and "1200 sqft". -/
theorem C2_area_witness :
    extractDubaiArea "450 m2".toList = (450 : ℚ) * sqftPerM2 ∧
    extractArea "1200 sqft".toList = (1200 : ℚ) := by
  have h1 := C2_area.1 [] "450".toList " ".toList []
    (fun c hc => absurd hc (List.not_mem_nil c)) (by decide) (by decide) (by decide)
    (by decide)
  have h2 := C2_area.1 [] "1200".toList " ".toList []
    (fun c hc => absurd hc (List.not_mem_nil c)) (by decide) (by decide) (by decide)
    (by decide)
  constructor
  · rw [(by decide : ("450 m2".toList : List Char) =
      [] ++ ("450".toList ++ (" ".toList ++ ("m2".toList ++ [])))),
      (by decide : (450 : ℚ) = ((natOf "450".toList : ℕ) : ℚ))]
    exact h1.1
  · rw [(by decide : ("1200 sqft".toList : List Char) =
      [] ++ ("1200".toList ++ (" ".toList ++ ("sqft".toList ++ [])))),
      (by decide : (1200 : ℚ) = ((natOf "1200".toList : ℕ) : ℚ))]
    exact h2.2

/-- C3: the fallback identifier is wall-clock reading plus the node's per-page
index.  Two pages of the same source whose code-less first nodes are extracted at
the same `UnixNano` reading produce the identical identifier "nepal-99-0" twice,
so the run's identifiers contain a duplicate, contradicting the claimed
uniqueness. -/
theorem C3_duplicate_ids :
    ¬ ((scrapeNepalProperties nepalSource c3pages).map (fun p => p.id)).Nodup ∧
    (scrapeNepalProperties nepalSource c3pages).length = 2 ∧
    (scrapeNepalProperties nepalSource c3pages).map (fun p => p.id) =
      [nepalFallbackID 99 0, nepalFallbackID 99 0] := by
  refine ⟨?_, by decide, by decide⟩
  decide

/-- C4: a single failing page (here HTTP 404) contributes nothing; the run's
collection equals the union of the listings extracted from the remaining pages,
the Dubai analogue of a 404 also yields nothing, and the exit status — which
depends only on whether the final artifact could be serialized and persisted — is
still 0. -/
theorem C4_partial_failure (src : List Char)
    (pre post : List (FetchOutcome (ParsedDoc NepalNode)))
    (b : ParsedDoc NepalNode) (db : ParsedDoc DubaiNode)
    (d : FetchOutcome (ParsedDoc DubaiNode)) :
    scrapeNepalProperties src (pre ++ FetchOutcome.response 404 b :: post) =
      scrapeNepalProperties src pre ++ scrapeNepalProperties src post ∧
    runCollected (pre ++ FetchOutcome.response 404 b :: post) d =
      runCollected (pre ++ post) d ∧
    scrapeDubaiProperties src (FetchOutcome.response 404 db) = [] ∧
    runExitCode (pre ++ FetchOutcome.response 404 b :: post) d true = 0 := by
  have hnil : ∀ s : List Char, nepalPageProps s (FetchOutcome.response 404 b) = [] :=
    fun s => rfl
  have key : ∀ s : List Char,
      scrapeNepalProperties s (pre ++ FetchOutcome.response 404 b :: post) =
      scrapeNepalProperties s pre ++ scrapeNepalProperties s post := by
    intro s
    unfold scrapeNepalProperties
    rw [List.flatMap_append, List.flatMap_cons, hnil s, List.nil_append]
  refine ⟨key src, ?_, rfl, rfl⟩
  unfold runCollected
  rw [key nepalSource]
  unfold scrapeNepalProperties
  rw [List.flatMap_append]

/-- C5, counterexample.  The claim says every 2xx response proceeds to parsing,
but the scraper's test is `StatusCode != 200`: the 2xx status 204 is classified
as a failed, skipped unit. -/
theorem C5_counterexample :
    pageStatus (FetchOutcome.response 204 (ParsedDoc.nodes ([] : List NepalNode))) =
      PageStatus.failedStatus 204 ∧
    (pageStatus (FetchOutcome.response 204
      (ParsedDoc.nodes ([] : List NepalNode)))).isFailed = true ∧
    200 ≤ 204 ∧ 204 < 300 := by
  refine ⟨by decide, by decide, by norm_num, by norm_num⟩

/-- C5, amended: a page fetch is a failed, skipped unit iff a transport error
occurs, the status differs from exactly 200, or the body fails to parse; only
status-200 responses proceed to parsing; and a failed unit contributes nothing
while the rest of the run is processed unchanged — it never aborts the run. -/
theorem C5_amended :
    (∀ (st : ℕ) (body : ParsedDoc NepalNode),
      (pageStatus (FetchOutcome.response st body)).isFailed =
        (decide (¬ st = 200) || body.isParseFail)) ∧
    (∀ (st : ℕ) (body : ParsedDoc DubaiNode),
      (pageStatus (FetchOutcome.response st body)).isFailed =
        (decide (¬ st = 200) || body.isParseFail)) ∧
    (pageStatus (FetchOutcome.transportError :
      FetchOutcome (ParsedDoc NepalNode))).isFailed = true ∧
    (∀ (src : List Char) (r : FetchOutcome (ParsedDoc NepalNode)) rest,
      scrapeNepalProperties src (r :: rest) =
        nepalPageProps src r ++ scrapeNepalProperties src rest) ∧
    (∀ src : List Char,
      scrapeDubaiProperties src FetchOutcome.transportError = [] ∧
      ∀ body : ParsedDoc DubaiNode,
        scrapeDubaiProperties src (FetchOutcome.response 204 body) = []) := by
  refine ⟨?_, ?_, rfl, ?_, ?_⟩
  · intro st body
    by_cases hst : st = 200
    · cases body <;> simp [pageStatus, PageStatus.isFailed, ParsedDoc.isParseFail, hst]
    · cases body <;> simp [pageStatus, PageStatus.isFailed, hst]
  · intro st body
    by_cases hst : st = 200
    · cases body <;> simp [pageStatus, PageStatus.isFailed, ParsedDoc.isParseFail, hst]
    · cases body <;> simp [pageStatus, PageStatus.isFailed, hst]
  · intro src r rest
    unfold scrapeNepalProperties
    rw [List.flatMap_cons]
  · intro src
    exact ⟨rfl, fun body => rfl⟩

/-- C6, counterexample.  The claim says the extractor returns the integer
adjacent to the keyword for every text, but `strconv.Atoi` fails beyond
2^63 - 1, so a 20-digit count before " Bed" yields 0 rather than that integer. -/
theorem C6_counterexample :
    extractBedrooms "10000000000000000000 Bed".toList = 0 ∧
    ¬ extractBedrooms "10000000000000000000 Bed".toList = 10000000000000000000 := by
  constructor
  · decide
  · decide

/-- C6, amended: the bedroom and bathroom extractors return the integer adjacent
to "Bed" and "Bath" respectively whenever it fits a signed 64-bit `int`
(otherwise `Atoi` errors and the extractor yields 0), and 0 when no digit is
present; in particular "3 Bed 2 Bath 1200 sqft" yields bedrooms 3, bathrooms 2
(and area 1200). -/
theorem C6_amended :
    (∀ pre ds ws rest : List Char,
      (∀ c ∈ pre, isDigit c = false) → ds ≠ [] → (∀ c ∈ ds, isDigit c = true) →
      (∀ c ∈ ws, isPerlSpace c = true) → natOf ds ≤ 9223372036854775807 →
      extractBedrooms (pre ++ (ds ++ (ws ++ ("Bed".toList ++ rest)))) = natOf ds ∧
      extractBathrooms (pre ++ (ds ++ (ws ++ ("Bath".toList ++ rest)))) = natOf ds) ∧
    (∀ s : List Char, (∀ c ∈ s, isDigit c = false) →
      extractBedrooms s = 0 ∧ extractBathrooms s = 0) ∧
    extractBedrooms "3 Bed 2 Bath 1200 sqft".toList = 3 ∧
    extractBathrooms "3 Bed 2 Bath 1200 sqft".toList = 2 ∧
    extractArea "3 Bed 2 Bath 1200 sqft".toList = 1200 := by
  refine ⟨?_, ?_, by decide, by decide, by decide⟩
  · intro pre ds ws rest h1 h2 h3 h4 h5
    exact ⟨extractBedrooms_comp pre ds ws rest h1 h2 h3 h4 h5,
      extractBathrooms_comp pre ds ws rest h1 h2 h3 h4 h5⟩
  · intro s h
    exact ⟨extractBedrooms_no_digit h, extractBathrooms_no_digit h⟩

/-- C6, witness: the amended statement at "4 Bed flat" and "2 Bath". -/
theorem C6_amended_witness :
    extractBedrooms "4 Bed flat".toList = 4 ∧ extractBathrooms "2 Bath".toList = 2 := by
  have h1 := C6_amended.1 [] "4".toList " ".toList " flat".toList
    (fun c hc => absurd hc (List.not_mem_nil c)) (by decide) (by decide) (by decide)
    (by decide)
  have h2 := C6_amended.1 [] "2".toList " ".toList []
    (fun c hc => absurd hc (List.not_mem_nil c)) (by decide) (by decide) (by decide)
    (by decide)
  constructor
  · rw [(by decide : ("4 Bed flat".toList : List Char) =
      [] ++ ("4".toList ++ (" ".toList ++ ("Bed".toList ++ " flat".toList)))),
      (by decide : (4 : ℕ) = natOf "4".toList)]
    exact h1.1
  · rw [(by decide : ("2 Bath".toList : List Char) =
      [] ++ ("2".toList ++ (" ".toList ++ ("Bath".toList ++ [])))),
      (by decide : (2 : ℕ) = natOf "2".toList)]
    exact h2.2

/-- C7, counterexample.  The claim says no emitted Listing carries a relative or
empty URL, but a Nepal node whose anchor has no link is still emitted and its
URL stays empty: the absolutization guard at scraper.go:421 skips empty links. -/
theorem C7_counterexample :
    (nepalListing nepalSource 0 c7node).url = [] ∧
    nepalListing nepalSource 0 c7node ∈
      scrapeNepalProperties nepalSource
        [FetchOutcome.response 200 (ParsedDoc.nodes [c7node])] := by
  constructor
  · decide
  · decide

/-- C7, amended: every non-empty extracted link is resolved to an absolute URL
("http"-prefixed) against the source's base origin, and every Listing the Dubai
strategy emits has an absolute URL; only a Nepal node with no link at all yields
an (empty) non-absolute URL, as the counterexample shows. -/
theorem C7_amended :
    (∀ href : List Char, href ≠ [] →
      listPrefix "http".toList (resolveNepalURL href) = true) ∧
    (∀ (src : List Char) (r : FetchOutcome (ParsedDoc DubaiNode)) (p : Property),
      p ∈ scrapeDubaiProperties src r → listPrefix "http".toList p.url = true) := by
  constructor
  · intro href hne
    unfold resolveNepalURL
    by_cases hp : listPrefix "http".toList href = true
    · rw [if_neg]
      · exact hp
      · rintro ⟨-, hnp⟩
        exact hnp hp
    · rw [if_pos ⟨hne, fun hq => hp hq⟩]
      exact listPrefix_extend href (by decide : listPrefix "http".toList nepalBase = true)
  · intro src r p hp
    obtain ⟨i, n, href, rfl, -, -⟩ := mem_scrapeDubai hp
    show listPrefix "http".toList
      (if listPrefix "http".toList href = true then href else dubaiBase ++ href) = true
    by_cases hh : listPrefix "http".toList href = true
    · rw [if_pos hh]
      exact hh
    · rw [if_neg hh]
      exact listPrefix_extend href (by decide : listPrefix "http".toList dubaiBase = true)

/-- C7, witness: the amended statement at a relative Nepal link and at the
emitted Dubai record of `c7dnode`. -/
theorem C7_amended_witness :
    listPrefix "http".toList (resolveNepalURL "/kathmandu/h1".toList) = true ∧
    listPrefix "http".toList c7dprop.url = true := by
  constructor
  · exact C7_amended.1 "/kathmandu/h1".toList (by decide)
  · exact C7_amended.2 dubaiSource
      (FetchOutcome.response 200 (ParsedDoc.nodes [c7dnode])) c7dprop (by decide)

/-- C8: zero-price handling is per source.  Every Listing the Dubai strategy
emits has a non-empty title and a strictly positive price (records with price 0
are dropped), while the Nepal strategy emits one Listing per extracted node —
including nodes whose price text is empty, which carry the sentinel price 0 and
currency "". -/
theorem C8_policy :
    (∀ (src : List Char) (r : FetchOutcome (ParsedDoc DubaiNode)) (p : Property),
      p ∈ scrapeDubaiProperties src r → ¬ p.title = [] ∧ 0 < p.price) ∧
    (∀ (src : List Char) (ns : List NepalNode),
      (nepalPageProps src (FetchOutcome.response 200 (ParsedDoc.nodes ns))).length =
        ns.length) := by
  constructor
  · intro src r p hp
    obtain ⟨i, n, href, rfl, h1, h2⟩ := mem_scrapeDubai hp
    exact ⟨h1, h2⟩
  · intro src ns
    show (ns.enum.map (fun q => nepalListing src q.1 q.2)).length = ns.length
    rw [List.length_map, List.enum_length]

/-- C8, witness: the policy at an emitted Dubai record and at a single-node
Nepal page whose listing has price 0 and currency "". -/
theorem C8_policy_witness :
    (¬ c8dprop.title = [] ∧ 0 < c8dprop.price) ∧
    (nepalPageProps nepalSource
      (FetchOutcome.response 200 (ParsedDoc.nodes [c8zNode]))).length = 1 ∧
    (nepalListing nepalSource 0 c8zNode).price = 0 ∧
    (nepalListing nepalSource 0 c8zNode).currency = [] := by
  refine ⟨C8_policy.1 dubaiSource
    (FetchOutcome.response 200 (ParsedDoc.nodes [c8dnode])) c8dprop (by decide),
    C8_policy.2 nepalSource [c8zNode], by decide, by decide⟩

/-- C9: the collector model.  All sends precede `wg.Wait()`, but `main` reads the
shared slice without joining the collector goroutine and without taking the
mutex; the 1-second sleep gives no happens-before edge, so the schedule in which
no append has yet executed is reachable, and the delivered listing is missing
from the sequence handed to the output writer — contradicting the claimed
completeness. -/
theorem C9_unsynchronized_read :
    0 ≤ ([c9prop] : List Property).length ∧
    collectorRead [c9prop] 0 = [] ∧
    c9prop ∉ collectorRead [c9prop] 0 := by
  refine ⟨by decide, rfl, by decide⟩

/-- C10: the Dubai strategy hard-codes the bathroom field to zero (scraper.go:354),
so every Listing it emits has bathroom count 0 regardless of the page text. -/
theorem C10_dubai_bathrooms :
    ∀ (src : List Char) (r : FetchOutcome (ParsedDoc DubaiNode)) (p : Property),
      p ∈ scrapeDubaiProperties src r → p.bathrooms = 0 := by
  intro src r p hp
  obtain ⟨i, n, href, rfl, -, -⟩ := mem_scrapeDubai hp
  rfl

/-- C10, witness: the emitted record of `c10node`, whose page text plainly says
"2 Bath" (the bathroom extractor would read 2 from it), still has bathroom
count 0. -/
theorem C10_dubai_bathrooms_witness :
    c10prop.bathrooms = 0 ∧ extractBathrooms c10node.text = 2 :=
  ⟨C10_dubai_bathrooms dubaiSource
    (FetchOutcome.response 200 (ParsedDoc.nodes [c10node])) c10prop (by decide),
   by decide⟩
